import Mathlib

/-!
Verification of the SatSnake Zap Payment Protocol Engine.

This file gives a shallow embedding of the payment-protocol code of the
repository (the Nostr zap-receipt validator, the two Lightning payment
managers, the game-side payment listener and the bech32 codec) and proves
or refutes the specification claims about it.

JavaScript semantics are modelled as follows: untyped JS values become the
inductive type JsValue; a thrown exception becomes an Except error carrying
the message string; NaN produced by parseInt becomes the none case of an
Option Int (NaN propagates through arithmetic and makes every comparison
false, exactly as in JS); JS strict equality between a value and a string
or number literal becomes a pattern match.  32-bit wrapping of the bech32
bit accumulator is modelled with an explicit mod 2 to the 32.
-/

/-- A JavaScript value, as far as the embedded code needs. -/
inductive JsValue where
  | null : JsValue
  | undefined : JsValue
  | bool : Bool → JsValue
  | num : Int → JsValue
  | str : String → JsValue
  | arr : List JsValue → JsValue
  | obj : List (String × JsValue) → JsValue

/-- JS truthiness of a value ("", 0, null, undefined, false are falsy). -/
def jsTruthy : JsValue → Bool
  | .null => false
  | .undefined => false
  | .bool b => b
  | .num n => n != 0
  | .str s => s != ""
  | .arr _ => true
  | .obj _ => true

/-- Is the value the JS undefined value. -/
def isUndefined : JsValue → Bool
  | .undefined => true
  | _ => false

/-- First-match lookup in a JS object field list. -/
def objGet (fields : List (String × JsValue)) (key : String) : JsValue :=
  match fields.find? (fun p => p.1 == key) with
  | some p => p.2
  | none => .undefined

/-- JS property access `v[key]`: throws a TypeError on null and undefined,
yields undefined for properties of primitives and missing fields. -/
def jsGet (v : JsValue) (key : String) : Except String JsValue :=
  match v with
  | .null => .error ("TypeError: cannot read properties of null (reading " ++ key ++ ")")
  | .undefined => .error ("TypeError: cannot read properties of undefined (reading " ++ key ++ ")")
  | .obj fields => .ok (objGet fields key)
  | _ => .ok .undefined

/-- JS strict equality of a value with a string literal. -/
def jsStrictEqStr (v : JsValue) (s : String) : Bool :=
  match v with
  | .str t => t == s
  | _ => false

/-- JS strict equality of a value with a number literal. -/
def jsStrictEqNum (v : JsValue) (n : Int) : Bool :=
  match v with
  | .num m => m == n
  | _ => false

/-- JS `tags.find(t => t === name)`: only works on arrays, throws a
TypeError otherwise (this is how the source looks tags up: it compares the
whole tag against the tag NAME, so only a flat string element can match). -/
def jsFind (v : JsValue) (name : String) : Except String (Option JsValue) :=
  match v with
  | .arr l => .ok (l.find? (fun t => jsStrictEqStr t name))
  | .null => .error "TypeError: cannot read properties of null (reading find)"
  | .undefined => .error "TypeError: cannot read properties of undefined (reading find)"
  | _ => .error "TypeError: find is not a function"

/-- Truthiness of a find result (undefined when absent). -/
def optTruthy : Option JsValue → Bool
  | none => false
  | some v => jsTruthy v

/-- JS ToString coercion; in the embedded code only the string case is ever
reachable (JSON.parse and parseInt are applied to values produced by
jsFind, which are always strings). -/
def jsCoerceStr : JsValue → String
  | .str s => s
  | .num n => toString n
  | .null => "null"
  | .undefined => "undefined"
  | .bool b => cond b "true" "false"
  | .arr _ => ""
  | .obj _ => "[object Object]"

/-- Leading decimal digits of a character list, none when there are none. -/
def leadingDigits (cs : List Char) : Option Nat :=
  let ds := cs.takeWhile Char.isDigit
  if ds.isEmpty then none
  else some (ds.foldl (fun a c => a * 10 + (c.toNat - 48)) 0)

/-- JS parseInt(s, 10): skip leading whitespace, optional sign, leading
digits; NaN (none) when no digits are found. -/
def parseIntJS (s : String) : Option Int :=
  let cs := s.data.dropWhile (fun c => c == ' ' || c == '\t' || c == '\n' || c == '\r')
  match cs with
  | '-' :: rest => (leadingDigits rest).map (fun n => -(n : Int))
  | '+' :: rest => (leadingDigits rest).map (fun n => (n : Int))
  | _ => (leadingDigits cs).map (fun n => (n : Int))

/-- Math.floor(x / 1000) with NaN propagation. -/
def optFdiv1000 : Option Int → Option Int
  | none => none
  | some n => some (Int.fdiv n 1000)

/-- JS `<` on a possibly-NaN left operand: any comparison with NaN is false. -/
def optLtInt (a : Option Int) (b : Int) : Bool :=
  match a with
  | none => false
  | some x => x < b

/-- JS string interpolation of a possibly-NaN number. -/
def optIntToString : Option Int → String
  | none => "NaN"
  | some n => toString n

namespace Nostr

/-- Result object of the zap receipt / zap request validators.  Fields the
source leaves absent on a given return path are none. -/
structure ValidationResult where
  valid : Bool
  reason : Option String := none
  amountSats : Option Int := none
  amountMsats : Option Int := none
  senderPubkey : Option JsValue := none
  bolt11 : Option JsValue := none
  zapRequest : Option JsValue := none

/-- Shorthand for a rejection outcome. -/
def inval (m : String) : ValidationResult := { valid := false, reason := some m }

/-- The try/catch wrapper: a thrown error becomes a rejection carrying the
error message. -/
def catchToResult : Except String ValidationResult → ValidationResult
  | .ok r => r
  | .error m => inval m

/-- verifyEventSignature from nostr-relay-manager.js: a structural check
that id, sig, pubkey, created_at are truthy and kind is not undefined. -/
def verifyEventSignature (event : JsValue) : Except String Bool :=
  match jsGet event "id" with
  | .error m => .error m
  | .ok idv =>
  match jsGet event "sig" with
  | .error m => .error m
  | .ok sigv =>
  match jsGet event "pubkey" with
  | .error m => .error m
  | .ok pkv =>
  match jsGet event "created_at" with
  | .error m => .error m
  | .ok cav =>
  match jsGet event "kind" with
  | .error m => .error m
  | .ok kindv =>
    .ok (jsTruthy idv && jsTruthy sigv && jsTruthy pkv && jsTruthy cav && !(isUndefined kindv))

/-- Body of validateZapRequest (nostr-relay-manager.js lines 241-285),
before the catch.  cfgPk is this.config.recipientNostrPubkey. -/
def validateZapRequestBody (cfgPk : String) (zapRequest : JsValue)
    (expectedAmountSats : Int) : Except String ValidationResult :=
  match jsGet zapRequest "kind" with
  | .error m => .error m
  | .ok kindv =>
  if !(jsStrictEqNum kindv 9734) then .ok (inval "Invalid zap request kind") else
  match jsGet zapRequest "tags" with
  | .error m => .error m
  | .ok tags =>
  match jsFind tags "amount" with
  | .error m => .error m
  | .ok amountTag =>
  if !(optTruthy amountTag) then .ok (inval "No amount in zap request") else
  let amountMsats := parseIntJS (jsCoerceStr (amountTag.getD .undefined))
  let amountSats := optFdiv1000 amountMsats
  if optLtInt amountSats expectedAmountSats then
    .ok (inval ("Insufficient amount: " ++ optIntToString amountSats ++ " < "
          ++ toString expectedAmountSats))
  else
  match jsFind tags "p" with
  | .error m => .error m
  | .ok recipientTag =>
  if !(optTruthy recipientTag) || !(jsStrictEqStr (recipientTag.getD .undefined) cfgPk) then
    .ok (inval "Zap recipient mismatch")
  else
    .ok { valid := true, amountMsats := amountMsats, amountSats := amountSats }

/-- validateZapRequest: the body wrapped in its try/catch.  The
expectedSessionId parameter is present in the source but unused by it. -/
def validateZapRequest (cfgPk : String) (zapRequest : JsValue)
    (expectedSessionId : String) (expectedAmountSats : Int) : ValidationResult :=
  let _ := expectedSessionId
  catchToResult (validateZapRequestBody cfgPk zapRequest expectedAmountSats)

/-- Body of validateZapReceipt (nostr-relay-manager.js lines 162-232),
before the catch.  P models JSON.parse (a total platform function returning
either a parsed value or a thrown-error message). -/
def validateZapReceiptBody (P : String → Except String JsValue) (cfgPk : String)
    (event : JsValue) (gameSessionId : String) (expectedAmountSats : Int) :
    Except String ValidationResult :=
  match jsGet event "kind" with
  | .error m => .error m
  | .ok kindv =>
  if !(jsStrictEqNum kindv 9735) then .ok (inval "Not a zap receipt (kind 9735)") else
  match verifyEventSignature event with
  | .error m => .error m
  | .ok sigOk =>
  if !sigOk then .ok (inval "Invalid event signature") else
  match jsGet event "tags" with
  | .error m => .error m
  | .ok tags =>
  match jsFind tags "bolt11" with
  | .error m => .error m
  | .ok bolt11Tag =>
  match jsFind tags "description" with
  | .error m => .error m
  | .ok descriptionTag =>
  match jsFind tags "p" with
  | .error m => .error m
  | .ok recipientTag =>
  if !(optTruthy bolt11Tag) || !(optTruthy descriptionTag) || !(optTruthy recipientTag) then
    .ok (inval "Missing required zap receipt tags")
  else
  if !(jsStrictEqStr (recipientTag.getD .undefined) cfgPk) then
    .ok (inval "Recipient mismatch")
  else
  match P (jsCoerceStr (descriptionTag.getD .undefined)) with
  | .error _ => .ok (inval "Invalid zap request JSON")
  | .ok zapRequest =>
  let zapValidation := validateZapRequest cfgPk zapRequest gameSessionId expectedAmountSats
  if !zapValidation.valid then .ok zapValidation else
  let amountSats := optFdiv1000 zapValidation.amountMsats
  match jsGet zapRequest "pubkey" with
  | .error m => .error m
  | .ok senderPk =>
    .ok { valid := true, amountSats := amountSats,
          senderPubkey := some senderPk,
          bolt11 := bolt11Tag,
          zapRequest := some zapRequest }

/-- validateZapReceipt: the body wrapped in its try/catch, hence total. -/
def validateZapReceipt (P : String → Except String JsValue) (cfgPk : String)
    (event : JsValue) (gameSessionId : String) (expectedAmountSats : Int) :
    ValidationResult :=
  catchToResult (validateZapReceiptBody P cfgPk event gameSessionId expectedAmountSats)

/-- The subscription filter record of listenForZapReceipt. -/
structure NostrFilter where
  kinds : List Int
  authors : List String
  since : Int

/-- The filter built by listenForZapReceipt (nostr-relay-manager.js lines
100-105): kind 9735, author = configured recipient pubkey, since = sixty
seconds before the subscription time. -/
def zapReceiptFilter (recipientNostrPubkey : String) (now : Int) : NostrFilter :=
  { kinds := [9735], authors := [recipientNostrPubkey], since := now - 60 }

/-- Modelled from the spec: the relay subscription capability is external
(NDK, not in src/); section 6 of the spec fixes its filter semantics as
"kinds restricts to the receipt discriminator; authors restricts to the
expected recipient identity; since is a lower-bound timestamp". -/
def filterAdmits (f : NostrFilter) (kind : Int) (pubkey : String) (createdAt : Int) : Bool :=
  f.kinds.contains kind && f.authors.contains pubkey && decide (f.since ≤ createdAt)

end Nostr

namespace Game

/-- Observable state of the payment-listening phase of SatSnakeGame
(listenForPayment plus the handler registered through
listenForZapReceipt).  subOpen is whether the relay subscription is still
registered, timerFired/timerCleared track the setTimeout, statusMsg is the
payment-status line, uiReset records a resetPaymentUI call, unlocked and
overlayHidden record unlockGame and the overlay hiding. -/
structure ListenState where
  subOpen : Bool
  timerFired : Bool
  timerCleared : Bool
  statusMsg : Option String
  uiReset : Bool
  unlocked : Bool
  overlayHidden : Bool
deriving DecidableEq

/-- State right after listenForPayment returns: timer armed, subscription
open, nothing reported yet. -/
def initListenState : ListenState :=
  { subOpen := true, timerFired := false, timerCleared := false,
    statusMsg := none, uiReset := false, unlocked := false, overlayHidden := false }

/-- The asynchronous stimuli the listening phase can receive. -/
inductive ListenEvent where
  | timerFires : ListenEvent
  | relayEvent : JsValue → ListenEvent

/-- The confirmation status line, interpolating the resolved amount. -/
def confirmMsg (amountSats : Option Int) : String :=
  "✓ Payment confirmed! (" ++ optIntToString amountSats ++ " sats)"

/-- One step of the listening phase, from the source (part_002 lines
194-234 composed with nostr-relay-manager.js lines 107-147): the timeout
handler sets the timeout status and resets the payment UI but never calls
the stored unsubscribe; a relay event is validated and, only when valid,
clears the timer, reports confirmation, unlocks the game, hides the
overlay and unsubscribes (invalid events are merely logged). -/
def stepListen (P : String → Except String JsValue) (cfgPk gameSessionId : String)
    (expectedAmountSats : Int) (st : ListenState) : ListenEvent → ListenState
  | .timerFires =>
      if st.timerFired || st.timerCleared then st
      else { st with timerFired := true,
                     statusMsg := some "Payment timeout. Please try again.",
                     uiReset := true }
  | .relayEvent e =>
      if st.subOpen then
        let v := Nostr.validateZapReceipt P cfgPk e gameSessionId expectedAmountSats
        if v.valid then
          { st with timerCleared := true,
                    statusMsg := some (confirmMsg v.amountSats),
                    unlocked := true,
                    overlayHidden := true,
                    subOpen := false }
        else st
      else st

end Game

namespace LPM1

/-- SATSNAKE_CONFIG, the fields the payment managers read. -/
structure Config where
  recipientLightningAddress : String
  recipientNostrPubkey : String
  minPaymentSats : Int
  relays : List String
  zapReceiptTimeout : Int
  relayTimeout : Int

/-- The static configuration object from the source. -/
def SATSNAKE_CONFIG : Config :=
  { recipientLightningAddress := "mustardmoose1@primal.net",
    recipientNostrPubkey := "",
    minPaymentSats := 100,
    relays := ["wss://relay.damus.io", "wss://nos.lol",
               "wss://nostr-pub.wellorder.net", "wss://relay.nostr.band"],
    zapReceiptTimeout := 60000,
    relayTimeout := 5000 }

/-- The currentSession record stored by initiatePayment. -/
structure Session where
  id : String
  amountSats : Int
  amountMsats : Int
  invoice : String
  zapRequest : JsValue
  createdAt : Int

/-- Mutable state of the part_001 LightningPaymentManager. -/
structure ManagerState where
  currentSession : Option Session
  paymentInProgress : Bool

/-- Initial manager state (constructor). -/
def initManagerState : ManagerState := { currentSession := none, paymentInProgress := false }

/-- The parsed JSON body of a well-known LNURL metadata response; absent
fields are none. -/
structure LnurlRaw where
  status : Option String := none
  reason : Option String := none
  callback : Option String := none
  minSendable : Option Int := none
  maxSendable : Option Int := none
  allowsNostr : Option Bool := none
  nostrPubkey : Option String := none
  tag : Option String := none

/-- Outcome of the well-known fetch: none is a network error (fetch threw),
otherwise response.ok together with the parsed body. -/
def MetaResp := Option (Bool × LnurlRaw)

/-- The metadata object fetchLnurlMetadata returns on success: the raw
fields spread together with the computed lnurl, domain and username. -/
structure LnurlMeta where
  callback : String
  minSendable : Option Int
  maxSendable : Option Int
  allowsNostr : Option Bool
  nostrPubkey : Option String
  tag : Option String
  lnurl : String
  domain : String
  username : String

/-- The base64 alphabet used by btoa. -/
def B64CHARS : String := "ABCDEFGHIJKLMNOPQRSTUVWXYZabcdefghijklmnopqrstuvwxyz0123456789+/"

/-- One base64 symbol. -/
def b64char (i : Nat) : Char := B64CHARS.data.getD i '?'

/-- btoa on a byte list: standard base64 with trailing padding. -/
def b64encode : List Nat → List Char
  | [] => []
  | [a] => [b64char (a >>> 2), b64char ((a &&& 3) <<< 4), '=', '=']
  | [a, b] => [b64char (a >>> 2), b64char (((a &&& 3) <<< 4) ||| (b >>> 4)),
               b64char ((b &&& 15) <<< 2), '=']
  | a :: b :: c :: rest =>
      [b64char (a >>> 2), b64char (((a &&& 3) <<< 4) ||| (b >>> 4)),
       b64char (((b &&& 15) <<< 2) ||| (c >>> 6)), b64char (c &&& 63)]
      ++ b64encode rest

/-- JS btoa of a latin1 string. -/
def btoa (s : String) : String := String.mk (b64encode (s.data.map Char.toNat))

/-- ASCII lower-casing, modelling JS toLowerCase on the ASCII strings that
occur here. -/
def jsToLowerCase (s : String) : String := String.mk (s.data.map Char.toLower)

/-- encodeLnurl from part_001: the simplified placeholder encoding
lnurl1 + btoa(url) with the padding stripped, lower-cased. -/
def encodeLnurl (url : String) : String :=
  "lnurl1" ++ jsToLowerCase (String.mk ((btoa url).data.filter (fun c => c != '=')))

/-- JS String.split on a separator character, structurally recursive. -/
def splitChar (sep : Char) : List Char → List (List Char)
  | [] => [[]]
  | c :: rest =>
    match splitChar sep rest with
    | [] => if c == sep then [[], []] else [[c]]
    | h :: t => if c == sep then [] :: h :: t else (c :: h) :: t

/-- The parts of address.split on the at sign. -/
def splitAddr (addr : String) : List String :=
  (splitChar '@' addr.data).map String.mk

/-- The well-known LNURL endpoint for a user@domain address (JS array
destructuring yields undefined for a missing part). -/
def wellKnownUrl (addr : String) : String :=
  let parts := splitAddr addr
  "https://" ++ parts.getD 1 "undefined" ++ "/.well-known/lnurlp/" ++ parts.getD 0 "undefined"

/-- fetchLnurlMetadata (part_001 lines 93-131): network error, non-2xx,
an explicit ERROR status, or a falsy callback yield null (none); every
other response is returned with lnurl/domain/username added.  Note the
sendable bounds are NOT validated. -/
def fetchLnurlMetadata (addr : String) (resp : MetaResp) : Option LnurlMeta :=
  match resp with
  | none => none
  | some (ok, d) =>
    if !ok then none
    else if d.status == some "ERROR" then none
    else match d.callback with
      | none => none
      | some cb =>
        if cb == "" then none
        else
          let parts := splitAddr addr
          some { callback := cb,
                 minSendable := d.minSendable, maxSendable := d.maxSendable,
                 allowsNostr := d.allowsNostr, nostrPubkey := d.nostrPubkey,
                 tag := d.tag,
                 lnurl := encodeLnurl (wellKnownUrl addr),
                 domain := parts.getD 1 "undefined",
                 username := parts.getD 0 "undefined" }

/-- createZapRequest (part_001 lines 136-159): the kind 9734 event record
with NIP-57 array-shaped tags. -/
def createZapRequest (sessionId : String) (amountSats : Int)
    (recipientPubkey : Option String) (nowSec : Int) (relays : List String) : JsValue :=
  let amountMsats := amountSats * 1000
  let pkVal : JsValue := match recipientPubkey with
    | some s => .str s
    | none => .undefined
  .obj [("kind", .num 9734),
        ("content", .str ("SatSnake game session: " ++ sessionId)),
        ("pubkey", .str ""),
        ("created_at", .num nowSec),
        ("tags", .arr [
          .arr (.str "relays" :: relays.map JsValue.str),
          .arr [.str "amount", .str (toString amountMsats)],
          .arr [.str "lnurl", .str "mustardmoose1@primal.net"],
          .arr [.str "p", pkVal]])]

/-- The parsed JSON body of a callback (invoice) response. -/
structure CallbackResp where
  ok : Bool
  status : Option String := none
  reason : Option String := none
  pr : Option String := none

/-- getInvoiceFromCallback (part_001 lines 164-200): none is a network
error; non-2xx, ERROR status or a falsy pr field yield null, otherwise the
raw invoice string. -/
def getInvoiceFromCallback (resp : Option CallbackResp) : Option String :=
  match resp with
  | none => none
  | some d =>
    if !d.ok then none
    else if d.status == some "ERROR" then none
    else match d.pr with
      | none => none
      | some pr => if pr == "" then none else some pr

/-- generateSessionId (part_001 line 206), with the Date.now() value and
the random suffix as oracle inputs. -/
def generateSessionId (nowMs : Int) (rand : String) : String :=
  "satsnake-" ++ toString nowMs ++ "-" ++ rand

/-- The record initiatePayment resolves with on success. -/
structure InitResult where
  invoice : String
  amountSats : Int
  sessionId : String
deriving DecidableEq

/-- A network request issued during initiatePayment. -/
inductive FetchCall where
  | wellKnown : String → FetchCall
  | callback : String → Int → FetchCall
deriving DecidableEq

/-- initiatePayment (part_001 lines 17-88).  Oracle inputs: the two fetch
responses, Date.now() and the random session suffix.  Returns the new
manager state, the JS return value (none is null) and the list of network
calls issued, in order.  Note: there is NO amount-bounds check anywhere in
this flow; the callback request is issued for any amount. -/
def initiatePayment (cfg : Config) (st : ManagerState) (amountSats : Option Int)
    (metaResp : MetaResp) (cbResp : Option CallbackResp) (nowMs : Int) (rand : String) :
    ManagerState × Option InitResult × List FetchCall :=
  if st.paymentInProgress then (st, none, [])
  else
    -- amountSats || this.config.minPaymentSats (null and 0 are falsy)
    let amount := match amountSats with
      | some n => if n == 0 then cfg.minPaymentSats else n
      | none => cfg.minPaymentSats
    let st1 : ManagerState := { st with paymentInProgress := true }
    let sessionId := generateSessionId nowMs rand
    let amountMsats := amount * 1000
    let wkCall := FetchCall.wellKnown (wellKnownUrl cfg.recipientLightningAddress)
    match fetchLnurlMetadata cfg.recipientLightningAddress metaResp with
    | none => ({ st1 with paymentInProgress := false }, none, [wkCall])
    | some meta =>
      if meta.allowsNostr != some true then
        ({ st1 with paymentInProgress := false }, none, [wkCall])
      else
        let zapRequest := createZapRequest sessionId amount meta.nostrPubkey
                            (Int.fdiv nowMs 1000) cfg.relays
        let cbCall := FetchCall.callback meta.callback amountMsats
        match getInvoiceFromCallback cbResp with
        | none => ({ st1 with paymentInProgress := false }, none, [wkCall, cbCall])
        | some invoice =>
          let sess : Session :=
            { id := sessionId, amountSats := amount, amountMsats := amountMsats,
              invoice := invoice, zapRequest := zapRequest, createdAt := nowMs }
          ({ st1 with currentSession := some sess },
           some { invoice := invoice, amountSats := amount, sessionId := sessionId },
           [wkCall, cbCall])

/-- completePayment (part_001 lines 276-281): release the flight lock and
drop the session (its id is read, never written). -/
def completePayment (st : ManagerState) : ManagerState × Option String :=
  ({ currentSession := none, paymentInProgress := false },
   (st.currentSession.map Session.id))

/-- resetPayment (part_001 lines 286-289). -/
def resetPayment (_st : ManagerState) : ManagerState :=
  { currentSession := none, paymentInProgress := false }

/-- The operations a caller can perform on the manager, with oracle data. -/
inductive Op where
  | initiate : Option Int → MetaResp → Option CallbackResp → Int → String → Op
  | complete : Op
  | reset : Op

/-- State transition of one operation. -/
def step (cfg : Config) (st : ManagerState) : Op → ManagerState
  | .initiate a m c n r => (initiatePayment cfg st a m c n r).1
  | .complete => (completePayment st).1
  | .reset => resetPayment st

/-- Manager state after a sequence of operations from the initial state. -/
def run (cfg : Config) (ops : List Op) : ManagerState :=
  ops.foldl (step cfg) initManagerState

end LPM1

namespace LPM0

/-- The LNURL endpoint constant of js/lightning/LightningPaymentManager.js. -/
def lnurlEndpoint : String := "https://primal.net/.well-known/lnurlp/mustardmoose1"

/-- The Lightning address constant. -/
def lightningAddress : String := "mustardmoose1@primal.net"

/-- The bech32 charset. -/
def CHARSET : String := "qpzry9x8gf2tvdw0s3jn54khce6mua7l"

/-- bech32PolymodStep: one shift-and-reduce step of the BCH checksum.
`-((b >> i) & 1) & g` is the generator constant when the bit is set and 0
otherwise; every value stays below 2 to the 30, so JS 32-bit arithmetic
coincides with Nat arithmetic here. -/
def bech32PolymodStep (pre : Nat) : Nat :=
  let b := pre >>> 25
  ((pre &&& 0x1ffffff) <<< 5)
    ^^^ (cond ((b >>> 0) &&& 1 == 1) 0x3b6aaaa 0)
    ^^^ (cond ((b >>> 1) &&& 1 == 1) 0x1c55556 0)
    ^^^ (cond ((b >>> 2) &&& 1 == 1) 0x0e9a2d2 0)
    ^^^ (cond ((b >>> 3) &&& 1 == 1) 0x074d32c 0)
    ^^^ (cond ((b >>> 4) &&& 1 == 1) 0x03a6945 0)

/-- The inner while-loop of bech32To5Bit: emit 5-bit words from the top of
the accumulator while at least 5 bits are pending.  Returns the emitted
words in order and the remaining pending bit count. -/
def emitWords (bits : Nat) (len : Nat) : List Nat × Nat :=
  if h : 5 ≤ len then
    let lenTail := len - 5
    let p := emitWords bits lenTail
    (((bits >>> lenTail) &&& 31) :: p.1, p.2)
  else ([], len)
  termination_by len
  decreasing_by omega

/-- The byte loop of bech32To5Bit.  The JS accumulator `bits` wraps at 32
bits, modelled by the explicit mod; `bitsLen` counts the pending low bits. -/
def bech32To5BitGo (bits bitsLen : Nat) : List Nat → List Nat
  | [] => if bitsLen > 0 then [(bits <<< (5 - bitsLen)) &&& 31] else []
  | b :: rest =>
      let bits1 := ((bits <<< 8) ||| b) % 4294967296
      let p := emitWords bits1 (bitsLen + 8)
      p.1 ++ bech32To5BitGo bits1 p.2 rest

/-- bech32To5Bit: regroup 8-bit bytes into 5-bit words. -/
def bech32To5Bit (data : List Nat) : List Nat := bech32To5BitGo 0 0 data

/-- bech32CreateChecksum: polymod over the low 5 bits of prefix + "1", then
the data words, then six zero steps; xor the remainder with 1 and split it
into six 5-bit symbols. -/
def bech32CreateChecksum (hrp : String) (data : List Nat) : List Nat :=
  let pm1 := (hrp ++ "1").data.foldl
    (fun pm c => bech32PolymodStep pm ^^^ (c.toNat &&& 0x1f)) 1
  let pm2 := data.foldl (fun pm d => bech32PolymodStep pm ^^^ d) pm1
  let pm3 := (List.range 6).foldl (fun pm _ => bech32PolymodStep pm) pm2
  let pm := pm3 ^^^ 1
  (List.range 6).map (fun i => (pm >>> (5 * (5 - i))) &&& 31)

/-- JS string indexing CHARSET[w] appended to a string: out-of-range
indexing gives undefined, which += renders as "undefined" (every index
used is masked below 32, so that branch is dead). -/
def charAt (s : String) (i : Nat) : String :=
  match s.data.get? i with
  | some c => String.mk [c]
  | none => "undefined"

/-- ASCII upper-casing, modelling JS toUpperCase on the ASCII strings
produced by the encoder. -/
def jsToUpperCase (s : String) : String := String.mk (s.data.map Char.toUpper)

/-- bech32Encode: words, checksum, charset mapping, and a final
toUpperCase. -/
def bech32Encode (hrp : String) (data : List Nat) : String :=
  let words := bech32To5Bit data
  let checksum := bech32CreateChecksum hrp words
  let combined := words ++ checksum
  jsToUpperCase (combined.foldl (fun r w => r ++ charAt CHARSET w) (hrp ++ "1"))

/-- lnurlToBech32: encode the lower-cased endpoint URL (TextEncoder yields
its ASCII bytes) with prefix lnurl. -/
def lnurlToBech32 (url : String) : String :=
  bech32Encode "lnurl" ((LPM1.jsToLowerCase url).data.map Char.toNat)

/-- Parsed JSON body of the part_000 metadata response. -/
structure Raw0 where
  minSendable : Option Int := none
  maxSendable : Option Int := none
  tag : Option String := none
  callback : Option String := none
deriving DecidableEq

/-- Outcome of the part_000 metadata fetch. -/
inductive FetchR where
  | netErr : String → FetchR
  | response : Bool → Int → Raw0 → FetchR

/-- Return value of part_000 initiatePayment; fields absent on the error
path are none. -/
structure Res0 where
  success : Bool
  error : Option String := none
  lnurl : Option Raw0 := none
  bech32Lnurl : Option String := none
  lightningAddress : Option String := none
  amountSats : Option Int := none
  sessionId : Option String := none
deriving DecidableEq

/-- The amount check `amountSats < lnurlData.minSendable / 1000` of
part_000, with JS float division modelled as exact rational division and
an absent field giving NaN, which compares false. -/
def ltDivNaN (a : Int) (m : Option Int) : Bool :=
  match m with
  | none => false
  | some v => decide ((a : ℚ) < (v : ℚ) / 1000)

/-- The amount check `amountSats > lnurlData.maxSendable / 1000`. -/
def gtDivNaN (a : Int) (m : Option Int) : Bool :=
  match m with
  | none => false
  | some v => decide ((v : ℚ) / 1000 < (a : ℚ))

/-- initiatePayment of part_000 (lines 9-45): fetch the metadata, validate
the amount against the sendable bounds, and return the data the UI needs;
this flow never calls the LNURL callback (step 2 of the source explicitly
skips it).  Returns the result and the list of URLs fetched. -/
def initiatePayment (amountSats : Int) (sessionId : String) (resp : FetchR) :
    Res0 × List String :=
  match resp with
  | .netErr msg => ({ success := false, error := some msg }, [lnurlEndpoint])
  | .response ok status d =>
    if !ok then
      ({ success := false, error := some ("LNURL fetch failed: " ++ toString status) },
       [lnurlEndpoint])
    else if ltDivNaN amountSats d.minSendable || gtDivNaN amountSats d.maxSendable then
      ({ success := false,
         error := some ("Amount " ++ toString amountSats ++ " sats is outside allowed range") },
       [lnurlEndpoint])
    else
      let lnurlUri := if d.tag == some "payRequest" then
          some ("lightning:" ++ (d.callback.getD "undefined") ++ "?amount="
            ++ toString (amountSats * 1000) ++ "&comment=SatSnakev2+tip")
        else none
      let _ := lnurlUri
      ({ success := true, lnurl := some d,
         bech32Lnurl := some (lnurlToBech32 lnurlEndpoint),
         lightningAddress := some lightningAddress,
         amountSats := some amountSats, sessionId := some sessionId },
       [lnurlEndpoint])

end LPM0

namespace BechSpec

/-- The eight bits of a byte, most significant first (from the claim: the
payload bytes are regrouped most-significant-bit first). -/
def byteBitsMSB (b : Nat) : List Bool :=
  (List.range 8).map (fun i => b.testBit (7 - i))

/-- Value of a bit string read most-significant-bit first. -/
def bitsToNat (l : List Bool) : Nat :=
  l.foldl (fun a bit => 2 * a + cond bit 1 0) 0

/-- Split a bit string into consecutive groups of five (the last group may
be shorter). -/
def chunk5 (l : List Bool) : List (List Bool) :=
  if h : l = [] then []
  else l.take 5 :: chunk5 (l.drop 5)
  termination_by l.length
  decreasing_by
    simp [List.length_drop]
    cases l with
    | nil => exact absurd rfl h
    | cons a t => simp

/-- Pad a bit string with zero bits on the low end up to a multiple of
five (from the claim: the final partial group is zero-padded on the low
end, no payload bits dropped). -/
def pad5 (l : List Bool) : List Bool :=
  l ++ List.replicate ((5 - l.length % 5) % 5) false

/-- The five-bit groups of a payload, as the claim words them: the bytes
regrouped MSB-first, final partial group zero-padded on the low end. -/
def to5Bit (data : List Nat) : List Nat :=
  (chunk5 (pad5 ((data.map byteBitsMSB).flatten))).map bitsToNat

/-- The checksum as the claim words it: feed the polymod state the lower 5
bits of each character of prefix + "1", then the payload groups, then six
zero steps; xor the final remainder with 1 and split it into six 5-bit
symbols. -/
def checksum (hrp : String) (words : List Nat) : List Nat :=
  let pm := (((hrp ++ "1").data.map (fun (c : Char) => c.toNat &&& 31)) ++ words
              ++ List.replicate 6 0).foldl
            (fun pm v => LPM0.bech32PolymodStep pm ^^^ v) 1 ^^^ 1
  (List.range 6).map (fun i => (pm >>> (5 * (5 - i))) &&& 31)

/-- The encoding as the claim words it: prefix + "1" + the charset-mapped
concatenation of the five-bit groups and the six checksum symbols. -/
def encode (hrp : String) (data : List Nat) : String :=
  let gs := to5Bit data
  hrp ++ "1" ++ String.mk ((gs ++ checksum hrp gs).map
    (fun w => LPM0.CHARSET.data.getD w 'q'))

/-- Proof helper: the maximal prefix of full five-bit groups. -/
def fullChunks (l : List Bool) : List (List Bool) :=
  if h : 5 ≤ l.length then l.take 5 :: fullChunks (l.drop 5) else []
  termination_by l.length
  decreasing_by simp [List.length_drop]; omega

/-- Proof helper: the remainder after removing all full five-bit groups. -/
def rem5 (l : List Bool) : List Bool :=
  if h : 5 ≤ l.length then rem5 (l.drop 5) else l
  termination_by l.length
  decreasing_by simp [List.length_drop]; omega

end BechSpec

/-! Arithmetic groundwork for the bech32 regrouping equivalence. -/

namespace BechSpec

/-- Masking with 31 is reduction mod 32. -/
lemma and31_eq_mod (x : Nat) : x &&& 31 = x % 32 := by
  have h : (31 : Nat) = 2 ^ 5 - 1 := by norm_num
  rw [h, Nat.and_pow_two_sub_one_eq_mod]

/-- A shift right followed by the 31 mask extracts a 5-bit window. -/
lemma shiftRight_and31 (x k : Nat) : (x >>> k) &&& 31 = x % 2 ^ (k + 5) / 2 ^ k := by
  rw [and31_eq_mod, Nat.shiftRight_eq_div_pow]
  have h : (32 : Nat) = 2 ^ 5 := by norm_num
  rw [h, Nat.div_mod_eq_mod_mul_div, ← pow_add]

/-- Oring a low block below a shifted value is addition. -/
lemma two_pow_mul_lor_eq_add (k a b : Nat) (hb : b < 2 ^ k) :
    2 ^ k * a ||| b = 2 ^ k * a + b := by
  apply Nat.eq_of_testBit_eq
  intro i
  rw [Nat.testBit_lor]
  rcases lt_or_ge i k with hik | hik
  · have hpos : 0 < 2 ^ i := Nat.pos_pow_of_pos i (by norm_num)
    have hd : 2 ^ k * a / 2 ^ i = 2 ^ (k - i) * a := by
      have hk : (2 : Nat) ^ k = 2 ^ i * 2 ^ (k - i) := by
        rw [← pow_add]
        congr 1
        omega
      rw [hk, mul_assoc, Nat.mul_div_cancel_left _ hpos]
    have hp : (2 : Nat) ^ (k - i) = 2 ^ (k - i - 1) * 2 := by
      rw [← pow_succ]
      congr 1
      omega
    have heven : 2 ^ (k - i) * a % 2 = 0 := by
      rw [hp, mul_assoc, mul_comm 2 a, ← mul_assoc, Nat.mul_mod_left]
    have h1 : (2 ^ k * a).testBit i = false := by
      rw [Nat.testBit_to_div_mod, hd]
      simp [heven]
    have h2 : (2 ^ k * a + b).testBit i = b.testBit i := by
      rw [Nat.testBit_to_div_mod, Nat.testBit_to_div_mod]
      have hk2 : 2 ^ k * a = 2 ^ i * (2 ^ (k - i) * a) := by
        rw [← mul_assoc, ← pow_add]
        congr 2
        omega
      have e1 : (2 ^ k * a + b) / 2 ^ i = b / 2 ^ i + 2 ^ (k - i) * a := by
        rw [add_comm (2 ^ k * a) b, hk2, Nat.add_mul_div_left _ _ hpos]
      have e2 : (b / 2 ^ i + 2 ^ (k - i) * a) % 2 = b / 2 ^ i % 2 := by
        rw [hp, mul_assoc, mul_comm 2 a, ← mul_assoc, Nat.add_mul_mod_self_right]
      rw [e1, e2]
    rw [h1, h2]
    simp
  · have hb2 : b < 2 ^ i := lt_of_lt_of_le hb (Nat.pow_le_pow_right (by norm_num) hik)
    have hposk : 0 < 2 ^ k := Nat.pos_pow_of_pos k (by norm_num)
    have h1 : b.testBit i = false := Nat.testBit_lt_two_pow hb2
    have hpow : (2 : Nat) ^ i = 2 ^ k * 2 ^ (i - k) := by
      rw [← pow_add]
      congr 1
      omega
    have h2 : (2 ^ k * a + b).testBit i = (2 ^ k * a).testBit i := by
      rw [Nat.testBit_to_div_mod, Nat.testBit_to_div_mod]
      have e1 : (2 ^ k * a + b) / 2 ^ i = a / 2 ^ (i - k) := by
        rw [hpow, ← Nat.div_div_eq_div_mul, Nat.mul_add_div hposk,
            Nat.div_eq_of_lt hb, add_zero]
      have e2 : 2 ^ k * a / 2 ^ i = a / 2 ^ (i - k) := by
        rw [hpow, ← Nat.div_div_eq_div_mul, Nat.mul_div_cancel_left _ hposk]
      rw [e1, e2]
    rw [h1, h2]
    simp

/-- Folding bits onto an accumulator shifts the accumulator up. -/
lemma bitsToNat_from (l : List Bool) (a : Nat) :
    l.foldl (fun x bit => 2 * x + cond bit 1 0) a = a * 2 ^ l.length + bitsToNat l := by
  induction l generalizing a with
  | nil => simp [bitsToNat]
  | cons b t ih =>
    simp only [List.foldl_cons, List.length_cons]
    rw [ih (2 * a + cond b 1 0)]
    have hc : bitsToNat (b :: t) = cond b 1 0 * 2 ^ t.length + bitsToNat t := by
      show List.foldl _ (2 * 0 + cond b 1 0) t = _
      rw [ih (2 * 0 + cond b 1 0)]
      ring_nf
    rw [hc, pow_succ]
    ring

/-- bitsToNat of a cons. -/
lemma bitsToNat_cons (b : Bool) (t : List Bool) :
    bitsToNat (b :: t) = cond b 1 0 * 2 ^ t.length + bitsToNat t := by
  show List.foldl _ (2 * 0 + cond b 1 0) t = _
  rw [bitsToNat_from]
  ring_nf

/-- bitsToNat of an append. -/
lemma bitsToNat_append (l1 l2 : List Bool) :
    bitsToNat (l1 ++ l2) = bitsToNat l1 * 2 ^ l2.length + bitsToNat l2 := by
  unfold bitsToNat
  rw [List.foldl_append]
  exact bitsToNat_from l2 _

/-- A bit string of length n has value below 2 to the n. -/
lemma bitsToNat_lt (l : List Bool) : bitsToNat l < 2 ^ l.length := by
  induction l with
  | nil => simp [bitsToNat]
  | cons b t ih =>
    rw [bitsToNat_cons, List.length_cons, pow_succ]
    cases b <;> simp <;> omega

/-- Zero padding has value zero. -/
lemma bitsToNat_replicate_false (n : Nat) : bitsToNat (List.replicate n false) = 0 := by
  induction n with
  | zero => rfl
  | succ k ih =>
    rw [List.replicate_succ, bitsToNat_cons, ih]
    simp

/-- The accumulator update of the byte loop, reduced modulo the window. -/
lemma accum_mod (bits b m : Nat) (hb : b < 256) (hm8 : 8 ≤ m) (hm32 : m ≤ 32) :
    ((bits <<< 8) ||| b) % 4294967296 % 2 ^ m = bits % 2 ^ (m - 8) * 256 + b := by
  have h32 : (4294967296 : Nat) = 2 ^ 32 := by norm_num
  rw [h32, Nat.mod_mod_of_dvd _ (Nat.pow_dvd_pow 2 hm32), Nat.shiftLeft_eq]
  have hb2 : b < 2 ^ 8 := by norm_num; omega
  rw [mul_comm bits (2 ^ 8), two_pow_mul_lor_eq_add 8 bits b hb2]
  have hposm8 : 0 < (2 : Nat) ^ (m - 8) := Nat.pos_pow_of_pos _ (by norm_num)
  have hq := Nat.div_add_mod bits (2 ^ (m - 8))
  have hr : bits % 2 ^ (m - 8) < 2 ^ (m - 8) := Nat.mod_lt _ hposm8
  have hsplit : (2 : Nat) ^ m = 2 ^ (m - 8) * 2 ^ 8 := by
    rw [← pow_add]
    congr 1
    omega
  have key : 2 ^ 8 * bits + b
      = 2 ^ m * (bits / 2 ^ (m - 8)) + (2 ^ 8 * (bits % 2 ^ (m - 8)) + b) := by
    rw [hsplit]
    nlinarith [hq]
  rw [key, Nat.mul_add_mod]
  have hlt : 2 ^ 8 * (bits % 2 ^ (m - 8)) + b < 2 ^ m := by
    rw [hsplit]
    have h256 : (2 : Nat) ^ 8 = 256 := by norm_num
    rw [h256] at hb2 ⊢
    omega
  rw [Nat.mod_eq_of_lt hlt]
  ring_nf

/-- A byte has eight bits. -/
lemma byteBitsMSB_length (b : Nat) : (byteBitsMSB b).length = 8 := by
  simp [byteBitsMSB]

set_option maxRecDepth 4096 in
/-- Reading back the MSB-first bits of a byte gives the byte. -/
lemma byteBitsMSB_toNat : ∀ b < 256, bitsToNat (byteBitsMSB b) = b := by decide

/-- emitWords below five pending bits: nothing to emit. -/
lemma emitWords_lt (bits len : Nat) (h : len < 5) : LPM0.emitWords bits len = ([], len) := by
  rw [LPM0.emitWords]
  simp [Nat.not_le.mpr h]

/-- emitWords with at least five pending bits: emit the top window. -/
lemma emitWords_ge (bits len : Nat) (h : 5 ≤ len) :
    LPM0.emitWords bits len
      = (((bits >>> (len - 5)) &&& 31) :: (LPM0.emitWords bits (len - 5)).1,
         (LPM0.emitWords bits (len - 5)).2) := by
  rw [LPM0.emitWords]
  simp [h]

/-- fullChunks of a short bit string. -/
lemma fullChunks_lt (l : List Bool) (h : l.length < 5) : fullChunks l = [] := by
  rw [fullChunks]
  simp [Nat.not_le.mpr h]

/-- fullChunks of a long bit string. -/
lemma fullChunks_ge (l : List Bool) (h : 5 ≤ l.length) :
    fullChunks l = l.take 5 :: fullChunks (l.drop 5) := by
  rw [fullChunks]
  simp [h]

/-- rem5 of a short bit string. -/
lemma rem5_lt (l : List Bool) (h : l.length < 5) : rem5 l = l := by
  rw [rem5]
  simp [Nat.not_le.mpr h]

/-- rem5 of a long bit string. -/
lemma rem5_ge (l : List Bool) (h : 5 ≤ l.length) : rem5 l = rem5 (l.drop 5) := by
  rw [rem5]
  simp [h]

/-- The remainder always has fewer than five bits. -/
lemma rem5_length_lt (l : List Bool) : (rem5 l).length < 5 := by
  by_cases h : 5 ≤ l.length
  · rw [rem5_ge l h]
    exact rem5_length_lt (l.drop 5)
  · rw [rem5_lt l (by omega)]
    omega
  termination_by l.length
  decreasing_by
    simp [List.length_drop]
    omega

/-- chunk5 of the empty bit string. -/
lemma chunk5_nil : chunk5 [] = [] := by
  rw [chunk5]
  simp

/-- chunk5 of a nonempty bit string. -/
lemma chunk5_ne (l : List Bool) (h : l ≠ []) :
    chunk5 l = l.take 5 :: chunk5 (l.drop 5) := by
  rw [chunk5]
  simp [h]

/-- chunk5 peels a full leading group. -/
lemma chunk5_cons5 (l1 l2 : List Bool) (h : l1.length = 5) :
    chunk5 (l1 ++ l2) = l1 :: chunk5 l2 := by
  have hne : l1 ++ l2 ≠ [] := by
    intro hc
    have := congrArg List.length hc
    simp [h] at this
  rw [chunk5_ne _ hne]
  congr 1
  · rw [← h]
    exact List.take_left l1 l2
  · congr 1
    rw [← h]
    exact List.drop_left l1 l2

/-- Padding ignores a full leading group. -/
lemma pad5_append5 (l1 l2 : List Bool) (h : l1.length = 5) :
    pad5 (l1 ++ l2) = l1 ++ pad5 l2 := by
  unfold pad5
  rw [List.length_append, h, List.append_assoc]
  have hm : (5 + l2.length) % 5 = l2.length % 5 := Nat.add_mod_left 5 _
  rw [hm]

/-- Chunking a padded stream peels exactly the full groups of a prefix. -/
lemma chunk5_pad5_peel (pl rest : List Bool) :
    chunk5 (pad5 (pl ++ rest)) = fullChunks pl ++ chunk5 (pad5 (rem5 pl ++ rest)) := by
  by_cases h : 5 ≤ pl.length
  · have htake : (pl.take 5).length = 5 := by
      rw [List.length_take]
      omega
    have hsplit : pl ++ rest = pl.take 5 ++ (pl.drop 5 ++ rest) := by
      rw [← List.append_assoc, List.take_append_drop]
    rw [hsplit, pad5_append5 _ _ htake, chunk5_cons5 _ _ htake,
        fullChunks_ge pl h, rem5_ge pl h, chunk5_pad5_peel (pl.drop 5) rest]
    simp
  · rw [fullChunks_lt pl (by omega), rem5_lt pl (by omega)]
    simp
  termination_by pl.length
  decreasing_by
    simp [List.length_drop]
    omega

/-- Behaviour of the emit loop on a window whose value is known: it emits
exactly the full five-bit groups of the window and leaves the remainder. -/
lemma emitWords_spec (bits : Nat) (pl : List Bool)
    (hmod : bits % 2 ^ pl.length = bitsToNat pl) :
    LPM0.emitWords bits pl.length = ((fullChunks pl).map bitsToNat, (rem5 pl).length)
      ∧ bits % 2 ^ (rem5 pl).length = bitsToNat (rem5 pl) := by
  by_cases h : 5 ≤ pl.length
  · have hlen1 : (pl.take 5).length = 5 := by
      rw [List.length_take]
      omega
    have hlen2 : (pl.drop 5).length = pl.length - 5 := List.length_drop 5 pl
    have happ : pl.take 5 ++ pl.drop 5 = pl := List.take_append_drop 5 pl
    have hval : bitsToNat pl
        = bitsToNat (pl.take 5) * 2 ^ (pl.drop 5).length + bitsToNat (pl.drop 5) := by
      conv_lhs => rw [← happ]
      exact bitsToNat_append _ _
    have hposd : 0 < (2 : Nat) ^ (pl.drop 5).length := Nat.pos_pow_of_pos _ (by norm_num)
    have hmod2 : bits % 2 ^ (pl.drop 5).length = bitsToNat (pl.drop 5) := by
      have hdvd : (2 : Nat) ^ (pl.drop 5).length ∣ 2 ^ pl.length := by
        apply Nat.pow_dvd_pow
        omega
      rw [← Nat.mod_mod_of_dvd bits hdvd, hmod, hval, mul_comm, Nat.mul_add_mod,
          Nat.mod_eq_of_lt (bitsToNat_lt _)]
    have hword : (bits >>> (pl.length - 5)) &&& 31 = bitsToNat (pl.take 5) := by
      rw [shiftRight_and31]
      have he : pl.length - 5 + 5 = pl.length := by omega
      rw [he, hmod, hval, ← hlen2, mul_comm, Nat.mul_add_div hposd,
          Nat.div_eq_of_lt (bitsToNat_lt _), add_zero]
    obtain ⟨ih1, ih2⟩ := emitWords_spec bits (pl.drop 5) hmod2
    constructor
    · rw [emitWords_ge bits pl.length h, hword, ← hlen2, ih1,
          fullChunks_ge pl h, rem5_ge pl h]
      simp
    · rw [rem5_ge pl h]
      exact ih2
  · have hlt : pl.length < 5 := by omega
    rw [emitWords_lt bits _ hlt, fullChunks_lt pl hlt, rem5_lt pl hlt]
    exact ⟨rfl, hmod⟩
  termination_by pl.length
  decreasing_by
    simp [List.length_drop]
    omega

/-- The byte loop computes exactly the claim-side regrouping: chunked,
zero-padded five-bit groups of the pending bits followed by the bits of
the remaining bytes. -/
lemma go_spec (data : List Nat) : ∀ (bits bitsLen : Nat) (pend : List Bool),
    (∀ b ∈ data, b < 256) → bitsLen < 5 → pend.length = bitsLen →
    bits % 2 ^ bitsLen = bitsToNat pend →
    LPM0.bech32To5BitGo bits bitsLen data
      = (chunk5 (pad5 (pend ++ (data.map byteBitsMSB).flatten))).map bitsToNat := by
  induction data with
  | nil =>
    intro bits bitsLen pend _ hlt hlen hmod
    simp only [List.map_nil, List.flatten_nil, List.append_nil, LPM0.bech32To5BitGo]
    by_cases h0 : bitsLen = 0
    · subst h0
      have hpend : pend = [] := List.length_eq_zero.mp hlen
      subst hpend
      simp [pad5, chunk5_nil]
    · have hpos : 0 < bitsLen := Nat.pos_of_ne_zero h0
      rw [if_pos hpos]
      have hpadamt : (5 - pend.length % 5) % 5 = 5 - bitsLen := by
        rw [hlen]
        omega
      have hpadlen : (pad5 pend).length = 5 := by
        simp [pad5, hpadamt, hlen]
        omega
      have hne : pad5 pend ≠ [] := by
        intro hc
        rw [hc] at hpadlen
        simp at hpadlen
      have hch : chunk5 (pad5 pend) = [pad5 pend] := by
        rw [chunk5_ne _ hne, List.take_of_length_le (by omega),
            List.drop_eq_nil_of_le (by omega), chunk5_nil]
      rw [hch]
      simp only [List.map_cons, List.map_nil]
      congr 1
      have hv : bitsToNat (pad5 pend) = bitsToNat pend * 2 ^ (5 - bitsLen) := by
        unfold pad5
        rw [hpadamt, bitsToNat_append, bitsToNat_replicate_false,
            List.length_replicate, add_zero]
      rw [hv, ← hmod, Nat.shiftLeft_eq, and31_eq_mod]
      have h32 : (32 : Nat) = 2 ^ bitsLen * 2 ^ (5 - bitsLen) := by
        rw [← pow_add, show bitsLen + (5 - bitsLen) = 5 from by omega]
        norm_num
      rw [h32, Nat.mul_mod_mul_right]
  | cons b rest ih =>
    intro bits bitsLen pend hdata hlt hlen hmod
    have hb : b < 256 := hdata b (List.mem_cons_self b rest)
    have hdata2 : ∀ x ∈ rest, x < 256 := fun x hx => hdata x (List.mem_cons_of_mem b hx)
    simp only [LPM0.bech32To5BitGo]
    have hlen1 : (pend ++ byteBitsMSB b).length = bitsLen + 8 := by
      rw [List.length_append, hlen, byteBitsMSB_length]
    have hwin : ((bits <<< 8) ||| b) % 4294967296 % 2 ^ (pend ++ byteBitsMSB b).length
        = bitsToNat (pend ++ byteBitsMSB b) := by
      rw [hlen1, accum_mod bits b (bitsLen + 8) hb (by omega) (by omega),
          bitsToNat_append, byteBitsMSB_length, byteBitsMSB_toNat b hb,
          show bitsLen + 8 - 8 = bitsLen from by omega, hmod]
      norm_num
    obtain ⟨he1, he2⟩ := emitWords_spec _ _ hwin
    rw [show bitsLen + 8 = (pend ++ byteBitsMSB b).length from hlen1.symm, he1]
    dsimp only
    rw [ih _ _ _ hdata2 (rem5_length_lt _) rfl he2]
    have hflat : ((b :: rest).map byteBitsMSB).flatten
        = byteBitsMSB b ++ (rest.map byteBitsMSB).flatten := by
      simp
    rw [hflat, ← List.append_assoc,
        chunk5_pad5_peel (pend ++ byteBitsMSB b) ((List.map byteBitsMSB rest).flatten),
        List.map_append]

/-- The source regrouping agrees with the claim-side regrouping on every
byte sequence. -/
lemma to5Bit_eq (data : List Nat) (h : ∀ b ∈ data, b < 256) :
    LPM0.bech32To5Bit data = to5Bit data := by
  unfold LPM0.bech32To5Bit to5Bit
  rw [go_spec data 0 0 [] h (by norm_num) rfl (by simp [bitsToNat])]
  simp

/-- Six bare polymod steps equal six steps fed with zero values. -/
lemma sixSteps (x : Nat) :
    (List.range 6).foldl (fun pm _ => LPM0.bech32PolymodStep pm) x
      = (List.replicate 6 0).foldl (fun pm v => LPM0.bech32PolymodStep pm ^^^ v) x := by
  simp only [show List.range 6 = [0, 1, 2, 3, 4, 5] from rfl,
    show List.replicate 6 (0 : Nat) = [0, 0, 0, 0, 0, 0] from rfl,
    List.foldl_cons, List.foldl_nil, Nat.xor_zero]

/-- The three checksum loops of the source equal the single claim-side
fold over the concatenated inputs. -/
lemma checksum_eq (hrp : String) (ws : List Nat) :
    LPM0.bech32CreateChecksum hrp ws = checksum hrp ws := by
  simp only [LPM0.bech32CreateChecksum, checksum]
  rw [List.foldl_append, List.foldl_append, List.foldl_map, sixSteps]

/-- Every chunk produced by chunk5 has at most five bits. -/
lemma chunk5_mem_length_le (l : List Bool) (c : List Bool) (hc : c ∈ chunk5 l) :
    c.length ≤ 5 := by
  by_cases h : l = []
  · subst h
    rw [chunk5_nil] at hc
    cases hc
  · rw [chunk5_ne l h] at hc
    rcases List.mem_cons.mp hc with h1 | h1
    · rw [h1, List.length_take]
      omega
    · exact chunk5_mem_length_le (l.drop 5) c h1
  termination_by l.length
  decreasing_by
    simp [List.length_drop]
    have := List.length_pos.mpr h
    omega

/-- Every five-bit group is below 32. -/
lemma to5Bit_lt32 (data : List Nat) : ∀ w ∈ to5Bit data, w < 32 := by
  intro w hw
  unfold to5Bit at hw
  rcases List.mem_map.mp hw with ⟨c, hc, rfl⟩
  calc bitsToNat c < 2 ^ c.length := bitsToNat_lt c
    _ ≤ 2 ^ 5 := Nat.pow_le_pow_right (by norm_num) (chunk5_mem_length_le _ c hc)
    _ = 32 := by norm_num

/-- Every checksum symbol is below 32. -/
lemma checksum_lt32 (hrp : String) (ws : List Nat) : ∀ w ∈ checksum hrp ws, w < 32 := by
  intro w hw
  unfold checksum at hw
  rcases List.mem_map.mp hw with ⟨i, _, rfl⟩
  exact Nat.lt_succ_of_le Nat.and_le_right

/-- Character-by-character appending of charset symbols equals appending
the mapped string, as long as every index is in range. -/
lemma foldl_charAt (l : List Nat) (s : String) (h : ∀ w ∈ l, w < 32) :
    l.foldl (fun r w => r ++ LPM0.charAt LPM0.CHARSET w) s
      = s ++ String.mk (l.map (fun w => LPM0.CHARSET.data.getD w 'q')) := by
  induction l generalizing s with
  | nil =>
    simp only [List.foldl_nil, List.map_nil]
    apply String.ext
    rw [String.data_append]
    simp
  | cons w ws ih =>
    have hw : w < 32 := h w (List.mem_cons_self _ _)
    have hclen : LPM0.CHARSET.data.length = 32 := by decide
    have hget : LPM0.CHARSET.data.get? w = some (LPM0.CHARSET.data.getD w 'q') := by
      cases hq : LPM0.CHARSET.data.get? w with
      | none =>
        rw [List.get?_eq_none] at hq
        omega
      | some c =>
        rw [List.getD_eq_get?, hq]
        rfl
    have hchar : LPM0.charAt LPM0.CHARSET w = String.mk [LPM0.CHARSET.data.getD w 'q'] := by
      unfold LPM0.charAt
      rw [hget]
    simp only [List.foldl_cons, List.map_cons]
    rw [hchar, ih _ (fun x hx => h x (List.mem_cons_of_mem _ hx))]
    apply String.ext
    simp [String.data_append]

end BechSpec

/-- Claim C7, counterexample: the encoder does not literally return
prefix + "1" + mapped symbols; already for the prefix lnurl and the empty
payload the result is upper-cased while the claimed form is lower case. -/
theorem c7_counterexample_uppercase :
    LPM0.bech32Encode "lnurl" [] ≠ BechSpec.encode "lnurl" [] := by decide

/-- Claim C7 (amended): for every prefix and every byte sequence,
bech32Encode equals the UPPER-CASE of prefix + "1" + the charset-mapped
concatenation of the five-bit groups (the payload bytes regrouped
MSB-first, final partial group zero-padded on the low end, no bits
dropped) and the six checksum symbols (polymod fed with the lower 5 bits
of each character of prefix + "1", then the groups, then six zero steps,
remainder xored with 1, split into six 5-bit symbols). -/
theorem c7_encode_amended (hrp : String) (data : List Nat)
    (hdata : ∀ b ∈ data, b < 256) :
    LPM0.bech32Encode hrp data = LPM0.jsToUpperCase (BechSpec.encode hrp data) := by
  simp only [LPM0.bech32Encode, BechSpec.encode]
  rw [BechSpec.to5Bit_eq data hdata, BechSpec.checksum_eq hrp]
  congr 1
  have hbound : ∀ w ∈ BechSpec.to5Bit data
      ++ BechSpec.checksum hrp (BechSpec.to5Bit data), w < 32 := by
    intro w hw
    rcases List.mem_append.mp hw with hw | hw
    · exact BechSpec.to5Bit_lt32 data w hw
    · exact BechSpec.checksum_lt32 hrp _ w hw
  rw [BechSpec.foldl_charAt _ _ hbound, String.append_assoc]

/-- Claim C7, witness: the amended equation evaluated at the prefix lnurl
and the bytes 0 and 255. -/
theorem c7_encode_amended_witness :
    LPM0.bech32Encode "lnurl" [0, 255]
      = LPM0.jsToUpperCase (BechSpec.encode "lnurl" [0, 255]) :=
  c7_encode_amended "lnurl" [0, 255] (by decide)

namespace Nostr

/-- Rule 1 of the receipt validation: kind equals the receipt
discriminator 9735. -/
def rule1 (ef : List (String × JsValue)) : Bool :=
  jsStrictEqNum (objGet ef "kind") 9735

/-- Rule 2: structural signature check (id, sig, pubkey, created_at truthy
and kind defined). -/
def rule2 (ef : List (String × JsValue)) : Bool :=
  jsTruthy (objGet ef "id") && jsTruthy (objGet ef "sig")
    && jsTruthy (objGet ef "pubkey") && jsTruthy (objGet ef "created_at")
    && !(isUndefined (objGet ef "kind"))

/-- Rule 3: the three required tags are found (under the strict
equality lookup, a tag is found exactly when a flat string element equals
the tag name). -/
def rule3 (ts : List JsValue) : Bool :=
  optTruthy (ts.find? (fun t => jsStrictEqStr t "bolt11"))
    && optTruthy (ts.find? (fun t => jsStrictEqStr t "description"))
    && optTruthy (ts.find? (fun t => jsStrictEqStr t "p"))

/-- Rule 4: the found recipient tag strictly equals the configured
recipient pubkey. -/
def rule4 (ts : List JsValue) (cfgPk : String) : Bool :=
  jsStrictEqStr ((ts.find? (fun t => jsStrictEqStr t "p")).getD .undefined) cfgPk

/-- The string handed to JSON.parse: the found description tag value,
coerced. -/
def descStr (ts : List JsValue) : String :=
  jsCoerceStr ((ts.find? (fun t => jsStrictEqStr t "description")).getD .undefined)

/-- The tag list of the embedded request object, as the source reads it. -/
def reqTags (zr : JsValue) : List JsValue :=
  match zr with
  | .obj rf =>
    match objGet rf "tags" with
    | .arr l => l
    | _ => []
  | _ => []

/-- Rule 6: the embedded request kind equals the request discriminator
9734. -/
def rule6 (zr : JsValue) : Bool :=
  match zr with
  | .obj rf => jsStrictEqNum (objGet rf "kind") 9734
  | _ => false

/-- Rule 7 as the code realises it: an amount tag is found (its value is
then the string amount, which parses to NaN, so the insufficiency branch
never fires). -/
def rule7 (rts : List JsValue) : Bool :=
  optTruthy (rts.find? (fun t => jsStrictEqStr t "amount"))

/-- Rule 8: the embedded request recipient tag is found and strictly
equals the configured recipient pubkey. -/
def rule8 (rts : List JsValue) (cfgPk : String) : Bool :=
  optTruthy (rts.find? (fun t => jsStrictEqStr t "p"))
    && jsStrictEqStr ((rts.find? (fun t => jsStrictEqStr t "p")).getD .undefined) cfgPk

/-- The eight validation rules applied in the order of the spec, with
short-circuit and the reason strings of the source.  This is the claim-side
reference chain the validator is compared with. -/
def ruleChainResult (P : String → Except String JsValue) (cfgPk : String)
    (ef : List (String × JsValue)) (ts : List JsValue) : ValidationResult :=
  if !(rule1 ef) then inval "Not a zap receipt (kind 9735)"
  else if !(rule2 ef) then inval "Invalid event signature"
  else if !(rule3 ts) then inval "Missing required zap receipt tags"
  else if !(rule4 ts cfgPk) then inval "Recipient mismatch"
  else
    match P (descStr ts) with
    | .error _ => inval "Invalid zap request JSON"
    | .ok zr =>
      if !(rule6 zr) then inval "Invalid zap request kind"
      else if !(rule7 (reqTags zr)) then inval "No amount in zap request"
      else if !(rule8 (reqTags zr) cfgPk) then inval "Zap recipient mismatch"
      else { valid := true, amountSats := none,
             senderPubkey := some (match zr with
               | .obj rf => objGet rf "pubkey"
               | _ => .undefined),
             bolt11 := ts.find? (fun t => jsStrictEqStr t "bolt11"),
             zapRequest := some zr }

/-- Structural side condition for the rule-order theorem: whenever the
embedded JSON parses, it is not null or undefined, and when its kind
passes rule 6 its tags field is an array (otherwise the validator ends in
its catch handler with a TypeError message instead of a rule reason). -/
def ParsedShapeOk (P : String → Except String JsValue) (ts : List JsValue) : Prop :=
  match P (descStr ts) with
  | .error _ => True
  | .ok .null => False
  | .ok .undefined => False
  | .ok (.obj rf) =>
      jsStrictEqNum (objGet rf "kind") 9734 = true → ∃ l, objGet rf "tags" = JsValue.arr l
  | .ok _ => True

/-- A found tag value is the string searched for. -/
lemma find_strictEq_eq (ts : List JsValue) (s : String) (v : JsValue)
    (h : ts.find? (fun t => jsStrictEqStr t s) = some v) : v = .str s := by
  have hp := List.find?_some h
  cases v with
  | str t =>
    simp [jsStrictEqStr] at hp
    rw [hp]
  | null => simp [jsStrictEqStr] at hp
  | undefined => simp [jsStrictEqStr] at hp
  | bool b => simp [jsStrictEqStr] at hp
  | num n => simp [jsStrictEqStr] at hp
  | arr l => simp [jsStrictEqStr] at hp
  | obj fs => simp [jsStrictEqStr] at hp

end Nostr

namespace Nostr

/-- verifyEventSignature on an object event computes rule 2. -/
lemma verifyEventSignature_obj (ef : List (String × JsValue)) :
    verifyEventSignature (.obj ef) = .ok (rule2 ef) := by
  unfold verifyEventSignature rule2
  simp [jsGet]

/-- validateZapRequest realises rules 6, 7 and 8 of the chain, in order,
on any embedded value that is not null or undefined and whose tags field
is an array once rule 6 passes; its success outcome carries NaN amounts
because the found amount tag value is the string amount. -/
lemma validateZapRequest_chain (cfgPk sid : String) (exp : Int) (zr : JsValue)
    (hnull : zr ≠ .null) (hundef : zr ≠ .undefined)
    (harr : ∀ rf, zr = .obj rf → jsStrictEqNum (objGet rf "kind") 9734 = true →
      ∃ l, objGet rf "tags" = JsValue.arr l) :
    validateZapRequest cfgPk zr sid exp
      = if !(rule6 zr) then inval "Invalid zap request kind"
        else if !(rule7 (reqTags zr)) then inval "No amount in zap request"
        else if !(rule8 (reqTags zr) cfgPk) then inval "Zap recipient mismatch"
        else { valid := true, amountMsats := none, amountSats := none } := by
  cases zr with
  | null => exact absurd rfl hnull
  | undefined => exact absurd rfl hundef
  | bool b =>
    unfold validateZapRequest validateZapRequestBody catchToResult
    simp [jsGet, rule6, jsStrictEqNum]
  | num n =>
    unfold validateZapRequest validateZapRequestBody catchToResult
    simp [jsGet, rule6, jsStrictEqNum]
  | str s =>
    unfold validateZapRequest validateZapRequestBody catchToResult
    simp [jsGet, rule6, jsStrictEqNum]
  | arr l =>
    unfold validateZapRequest validateZapRequestBody catchToResult
    simp [jsGet, rule6, jsStrictEqNum]
  | obj rf =>
    unfold validateZapRequest validateZapRequestBody catchToResult
    cases h6 : jsStrictEqNum (objGet rf "kind") 9734 with
    | false =>
      simp [jsGet, rule6, h6]
    | true =>
      obtain ⟨l, hl⟩ := harr rf rfl h6
      simp only [jsGet, h6, Bool.not_true, Bool.false_eq_true, if_false, hl, jsFind,
        rule6, Bool.not_false, if_true]
      cases hf : l.find? (fun t => jsStrictEqStr t "amount") with
      | none =>
        simp [reqTags, hl, rule7, hf, optTruthy]
      | some v =>
        have hv : v = .str "amount" := find_strictEq_eq l "amount" v hf
        subst hv
        simp only [hf, optTruthy, jsTruthy, reqTags, hl, rule7]
        have hparse : parseIntJS "amount" = none := by decide
        simp only [Option.getD_some, jsCoerceStr, hparse, optFdiv1000, optLtInt,
          Bool.not_true]
        cases hp : l.find? (fun t => jsStrictEqStr t "p") with
        | none =>
          simp [rule8, hp, optTruthy]
        | some w =>
          have hw : w = .str "p" := find_strictEq_eq l "p" w hp
          subst hw
          cases hceq : jsStrictEqStr (JsValue.str "p") cfgPk with
          | false => simp [rule8, hp, optTruthy, jsTruthy, hceq]
          | true => simp [rule8, hp, optTruthy, jsTruthy, hceq]

end Nostr

/-- Bool shape of the missing-tags short-circuit. -/
lemma not_and3 (x y z : Bool) : (!x || !y || !z) = !(x && y && z) := by
  cases x <;> cases y <;> cases z <;> rfl

/-- Claim C2 (amended): on any object event whose tags field is an array,
and for any JSON.parse behaviour that returns neither null nor undefined
and gives the embedded request an array tags field when its kind passes
rule 6, validateZapReceipt equals the eight-rule chain applied in the
order given in the spec with short-circuit and the reason strings of the source; in
particular a present-but-mismatching recipient tag is rejected by rule 4
with Recipient mismatch before the amount rule 7, while a MISSING
recipient tag is rejected earlier, by rule 3 with Missing required zap
receipt tags (not with Recipient mismatch as the claim states). -/
theorem c2_rule_order_amended (P : String → Except String JsValue)
    (cfgPk gameSessionId : String) (expectedAmountSats : Int)
    (ef : List (String × JsValue)) (ts : List JsValue)
    (hts : objGet ef "tags" = JsValue.arr ts)
    (hshape : Nostr.ParsedShapeOk P ts) :
    Nostr.validateZapReceipt P cfgPk (.obj ef) gameSessionId expectedAmountSats
      = Nostr.ruleChainResult P cfgPk ef ts := by
  unfold Nostr.validateZapReceipt Nostr.validateZapReceiptBody Nostr.catchToResult
    Nostr.ruleChainResult
  simp only [jsGet, Nostr.verifyEventSignature_obj, hts, jsFind]
  cases h1 : jsStrictEqNum (objGet ef "kind") 9735 with
  | false => simp [Nostr.rule1, h1]
  | true =>
    simp only [Nostr.rule1, h1, Bool.not_true, Bool.false_eq_true, if_false,
      Bool.not_false, if_true]
    cases h2 : Nostr.rule2 ef with
    | false => simp [h2]
    | true =>
      simp only [h2, Bool.not_true, Bool.false_eq_true, if_false, Bool.not_false, if_true]
      rw [not_and3]
      cases h3 : Nostr.rule3 ts with
      | false =>
        have h3' : (optTruthy (ts.find? (fun t => jsStrictEqStr t "bolt11"))
            && optTruthy (ts.find? (fun t => jsStrictEqStr t "description"))
            && optTruthy (ts.find? (fun t => jsStrictEqStr t "p"))) = false := h3
        simp [h3, h3']
      | true =>
        have h3' : (optTruthy (ts.find? (fun t => jsStrictEqStr t "bolt11"))
            && optTruthy (ts.find? (fun t => jsStrictEqStr t "description"))
            && optTruthy (ts.find? (fun t => jsStrictEqStr t "p"))) = true := h3
        simp only [h3, h3', Bool.not_true, Bool.false_eq_true, if_false,
          Bool.not_false, if_true]
        cases h4 : Nostr.rule4 ts cfgPk with
        | false =>
          have h4' : jsStrictEqStr ((ts.find? (fun t => jsStrictEqStr t "p")).getD .undefined)
              cfgPk = false := h4
          simp [h4, h4']
        | true =>
          have h4' : jsStrictEqStr ((ts.find? (fun t => jsStrictEqStr t "p")).getD .undefined)
              cfgPk = true := h4
          simp only [h4, h4', Bool.not_true, Bool.false_eq_true, if_false,
            Bool.not_false, if_true]
          simp only [show jsCoerceStr ((ts.find?
            (fun t => jsStrictEqStr t "description")).getD .undefined) = Nostr.descStr ts
            from rfl]
          cases hp : P (Nostr.descStr ts) with
          | error e => simp
          | ok zr =>
            unfold Nostr.ParsedShapeOk at hshape
            rw [hp] at hshape
            cases zr with
            | null => exact absurd hshape (by simp)
            | undefined => exact absurd hshape (by simp)
            | bool b =>
              dsimp only
              rw [Nostr.validateZapRequest_chain cfgPk gameSessionId expectedAmountSats _
                (by simp) (by simp) (by intro rf2 heq h6; simp at heq)]
              simp [Nostr.rule6, Nostr.inval]
            | num n =>
              dsimp only
              rw [Nostr.validateZapRequest_chain cfgPk gameSessionId expectedAmountSats _
                (by simp) (by simp) (by intro rf2 heq h6; simp at heq)]
              simp [Nostr.rule6, Nostr.inval]
            | str s =>
              dsimp only
              rw [Nostr.validateZapRequest_chain cfgPk gameSessionId expectedAmountSats _
                (by simp) (by simp) (by intro rf2 heq h6; simp at heq)]
              simp [Nostr.rule6, Nostr.inval]
            | arr al =>
              dsimp only
              rw [Nostr.validateZapRequest_chain cfgPk gameSessionId expectedAmountSats _
                (by simp) (by simp) (by intro rf2 heq h6; simp at heq)]
              simp [Nostr.rule6, Nostr.inval]
            | obj rf =>
              dsimp only
              have harr : ∀ rf2, JsValue.obj rf = JsValue.obj rf2 →
                  jsStrictEqNum (objGet rf2 "kind") 9734 = true →
                  ∃ l, objGet rf2 "tags" = JsValue.arr l := by
                intro rf2 heq h6
                injection heq with h
                subst h
                exact hshape h6
              rw [Nostr.validateZapRequest_chain cfgPk gameSessionId expectedAmountSats _
                (by simp) (by simp) harr]
              cases h6 : Nostr.rule6 (JsValue.obj rf) with
              | false => simp [h6, Nostr.inval]
              | true =>
                simp only [h6, Bool.not_true, Bool.false_eq_true, if_false,
                  Bool.not_false, if_true]
                cases h7 : Nostr.rule7 (Nostr.reqTags (JsValue.obj rf)) with
                | false => simp [h7, Nostr.inval]
                | true =>
                  simp only [h7, Bool.not_true, Bool.false_eq_true, if_false,
                    Bool.not_false, if_true]
                  cases h8 : Nostr.rule8 (Nostr.reqTags (JsValue.obj rf)) cfgPk with
                  | false => simp [h8, Nostr.inval]
                  | true =>
                    simp [h8, Nostr.inval, optFdiv1000, jsGet]

/-- A JSON.parse stand-in that always reports a parse error; several
concrete scenarios below do not depend on parsing. -/
def P0 : String → Except String JsValue := fun _ => .error "no parse"

/-- Claim C2, counterexample: a receipt whose bolt11 and description tags
are present but whose recipient tag is missing entirely is rejected with
Missing required zap receipt tags (rule 3), not with Recipient mismatch
(rule 4) as the claim asserts. -/
theorem c2_counterexample_missing_recipient_tag :
    (Nostr.validateZapReceipt P0 "recipient-pk"
      (.obj [("kind", .num 9735), ("id", .str "evt1"), ("sig", .str "sig1"),
             ("pubkey", .str "relay-pk"), ("created_at", .num 111),
             ("tags", .arr [.str "bolt11", .str "description"])])
      "session-1" 100).reason
      = some "Missing required zap receipt tags" := rfl

/-- Claim C2, witness: the amended rule-order equation evaluated on a
concrete receipt carrying all three tags, with a parse oracle that
rejects. -/
theorem c2_rule_order_amended_witness :
    Nostr.validateZapReceipt P0 "recipient-pk"
      (.obj [("kind", .num 9735), ("id", .str "evt1"), ("sig", .str "sig1"),
             ("pubkey", .str "relay-pk"), ("created_at", .num 111),
             ("tags", .arr [.str "bolt11", .str "description", .str "p"])])
      "session-1" 100
      = Nostr.ruleChainResult P0 "recipient-pk"
          [("kind", .num 9735), ("id", .str "evt1"), ("sig", .str "sig1"),
           ("pubkey", .str "relay-pk"), ("created_at", .num 111),
           ("tags", .arr [.str "bolt11", .str "description", .str "p"])]
          [.str "bolt11", .str "description", .str "p"] :=
  c2_rule_order_amended P0 "recipient-pk" "session-1" 100 _ _ rfl trivial

/-- An embedded zap request with NIP-57 array-shaped tags declaring
99000 msats (99 sats). -/
def zapRequest99 : JsValue :=
  .obj [("kind", .num 9734), ("pubkey", .str "payer-pk"),
        ("tags", .arr [.arr [.str "amount", .str "99000"],
                       .arr [.str "p", .str "recipient-pk"]])]

/-- The same request declaring 150000 msats (150 sats). -/
def zapRequest150 : JsValue :=
  .obj [("kind", .num 9734), ("pubkey", .str "payer-pk"),
        ("tags", .arr [.arr [.str "amount", .str "150000"],
                       .arr [.str "p", .str "recipient-pk"]])]

/-- A request with flat string tags, the only shape the lookup can find. -/
def zapRequestFlat : JsValue :=
  .obj [("kind", .num 9734), ("pubkey", .str "payer-pk"),
        ("tags", .arr [.str "amount", .str "p"])]

/-- Claim C1 (code bug): the validator can never resolve an embedded
amount.  A NIP-57 request carrying amount 99000 msats against an expected
100 sats is rejected with No amount in zap request (the tag lookup
compares whole tags against the string amount, which never matches an
array tag), not with the claimed insufficient-amount reason; the 150-sat
overpayment is rejected identically instead of being accepted with
amountSats = 150; and with flat string tags the found value is the string
amount itself, parseInt yields NaN, the amount comparison is false, and
validation passes with amountSats = none (NaN) for ANY expected amount. -/
theorem c1_amount_validation_code_bug :
    (Nostr.validateZapRequest "recipient-pk" zapRequest99 "session-1" 100).valid = false
    ∧ (Nostr.validateZapRequest "recipient-pk" zapRequest99 "session-1" 100).reason
        = some "No amount in zap request"
    ∧ (Nostr.validateZapRequest "recipient-pk" zapRequest150 "session-1" 100).reason
        = some "No amount in zap request"
    ∧ (Nostr.validateZapRequest "p" zapRequestFlat "session-1" 100).valid = true
    ∧ (Nostr.validateZapRequest "p" zapRequestFlat "session-1" 100).amountSats = none :=
  ⟨rfl, rfl, rfl, rfl, rfl⟩

/-- Claim C3 (code bug): when the receipt timeout fires, the handler sets
the dedicated timeout status (distinct from the invalid-payment status)
and resets the payment UI, but it never calls the stored unsubscribe: the
relay subscription remains open, so relay events are still processed
after the timeout instead of being ignored. -/
theorem c3_timeout_leaves_subscription_open :
    (Game.stepListen P0 "" "session-1" 100 Game.initListenState .timerFires).timerFired = true
    ∧ (Game.stepListen P0 "" "session-1" 100 Game.initListenState .timerFires).statusMsg
        = some "Payment timeout. Please try again."
    ∧ (Game.stepListen P0 "" "session-1" 100 Game.initListenState .timerFires).uiReset = true
    ∧ (Game.stepListen P0 "" "session-1" 100 Game.initListenState .timerFires).subOpen = true
    ∧ (Game.stepListen P0 "" "session-1" 100 Game.initListenState .timerFires).unlocked = false :=
  ⟨rfl, rfl, rfl, rfl, rfl⟩

/-- Claim C5: starting a negotiation while one is in flight returns the
in-progress signal (the source returns null) immediately, with no network
calls and the manager state, including the stored session, unchanged. -/
theorem c5_single_flight (cfg : LPM1.Config) (st : LPM1.ManagerState)
    (amountSats : Option Int) (metaResp : LPM1.MetaResp)
    (cbResp : Option LPM1.CallbackResp) (nowMs : Int) (rand : String)
    (h : st.paymentInProgress = true) :
    LPM1.initiatePayment cfg st amountSats metaResp cbResp nowMs rand = (st, none, []) := by
  unfold LPM1.initiatePayment
  simp [h]

/-- An in-flight manager state with a stored session. -/
def inflightState : LPM1.ManagerState :=
  { currentSession := some (⟨"satsnake-1-x", 100, 100000, "lnbc1", .null, 1⟩ : LPM1.Session),
    paymentInProgress := true }

/-- Claim C5, witness: the single-flight equation evaluated on a concrete
in-flight state. -/
theorem c5_single_flight_witness :
    LPM1.initiatePayment LPM1.SATSNAKE_CONFIG inflightState (some 200) none none 7 "r"
      = (inflightState, none, []) :=
  c5_single_flight LPM1.SATSNAKE_CONFIG inflightState (some 200) none none 7 "r" rfl

/-- Claim C6, counterexample: with the subscription opened at time 1000
(the moment the session is created), the filter admits a receipt event
created at 970, thirty seconds BEFORE the creation time of the session, because
since is now - 60 rather than a bound derived from session.createdAt. -/
theorem c6_counterexample_since_before_creation :
    Nostr.filterAdmits (Nostr.zapReceiptFilter "recipient-pk" 1000)
      9735 "recipient-pk" 970 = true
    ∧ (970 : Int) < 1000 := by decide

/-- Claim C6 (amended): the filter restricts kinds to 9735 and authors to
the configured recipient pubkey, and since is a lower bound equal to
sixty seconds before the subscription time, which can admit events
predating the creation of the session by up to sixty seconds. -/
theorem c6_filter_amended (pk : String) (now : Int) (k : Int) (p : String) (t : Int) :
    Nostr.filterAdmits (Nostr.zapReceiptFilter pk now) k p t = true
      ↔ (k = 9735 ∧ p = pk ∧ now - 60 ≤ t) := by
  simp [Nostr.filterAdmits, Nostr.zapReceiptFilter]
  tauto

/-- Claim C8, counterexample: a metadata response with a callback URL but
with BOTH sendable bounds absent is accepted (metadata is returned), not
rejected as the claim requires. -/
theorem c8_counterexample_missing_bounds_accepted :
    (LPM1.fetchLnurlMetadata "alice@example.com"
      (some (true, { callback := some "https://example.com/cb" }))).isSome = true := rfl

/-- Claim C8 (amended): the metadata resolver fails exactly on network
error, a non-2xx response, an explicit ERROR status, or a missing or
empty callback URL; absent sendable bounds are NOT validated and the
metadata is returned without them. -/
theorem c8_metadata_failure_amended (addr : String) (resp : LPM1.MetaResp) :
    LPM1.fetchLnurlMetadata addr resp = none
      ↔ (resp = none
        ∨ ∃ ok d, resp = some (ok, d)
          ∧ (ok = false ∨ d.status = some "ERROR"
             ∨ d.callback = none ∨ d.callback = some "")) := by
  cases resp with
  | none => simp [LPM1.fetchLnurlMetadata]
  | some od =>
    obtain ⟨ok, d⟩ := od
    cases ok with
    | false =>
      exact iff_of_true (by simp [LPM1.fetchLnurlMetadata])
        (Or.inr ⟨false, d, rfl, Or.inl rfl⟩)
    | true =>
      by_cases hs : d.status = some "ERROR"
      · exact iff_of_true (by simp [LPM1.fetchLnurlMetadata, hs])
          (Or.inr ⟨true, d, rfl, Or.inr (Or.inl hs)⟩)
      · cases hc : d.callback with
        | none =>
          exact iff_of_true (by simp [LPM1.fetchLnurlMetadata, hs, hc])
            (Or.inr ⟨true, d, rfl, Or.inr (Or.inr (Or.inl hc))⟩)
        | some cb =>
          by_cases hcb : cb = ""
          · subst hcb
            exact iff_of_true (by simp [LPM1.fetchLnurlMetadata, hs, hc])
              (Or.inr ⟨true, d, rfl, Or.inr (Or.inr (Or.inr hc))⟩)
          · apply iff_of_false
            · simp [LPM1.fetchLnurlMetadata, hs, hc, hcb]
            · rintro (h | ⟨ok2, d2, heq, hbad⟩)
              · exact Option.noConfusion h
              · injection heq with hpair
                injection hpair with hok hd
                subst hd
                rcases hbad with hb | hb | hb | hb
                · exact Bool.noConfusion (hok.trans hb)
                · exact hs hb
                · rw [hc] at hb
                  exact Option.noConfusion hb
                · rw [hc] at hb
                  injection hb with hcb2
                  exact hcb hcb2

namespace Nostr

/-- Every ok-result of the request validator body is well-formed. -/
lemma validateZapRequestBody_shape (cfgPk : String) (exp : Int) (zr : JsValue)
    (r : ValidationResult) (h : validateZapRequestBody cfgPk zr exp = .ok r) :
    r.valid = true ∨ (r.valid = false ∧ r.reason.isSome = true) := by
  unfold validateZapRequestBody at h
  repeat' first
    | split at h
    | dsimp only at h
  all_goals first
    | exact Except.noConfusion h
    | (injection h with h2
       subst h2
       simp [inval])

/-- Every outcome of validateZapRequest is well-formed: valid, or invalid
with a reason present (the catch handler turns any thrown message into a
reason). -/
lemma validateZapRequest_shape (cfgPk sid : String) (exp : Int) (zr : JsValue) :
    (validateZapRequest cfgPk zr sid exp).valid = true
    ∨ ((validateZapRequest cfgPk zr sid exp).valid = false
       ∧ (validateZapRequest cfgPk zr sid exp).reason.isSome = true) := by
  unfold validateZapRequest catchToResult
  cases hb : validateZapRequestBody cfgPk zr exp with
  | error m => simp [inval]
  | ok r =>
    simpa using validateZapRequestBody_shape cfgPk exp zr r hb

/-- Every ok-result of the receipt validator body is well-formed. -/
lemma validateZapReceiptBody_shape (P : String → Except String JsValue)
    (cfgPk sid : String) (exp : Int) (event : JsValue) (r : ValidationResult)
    (h : validateZapReceiptBody P cfgPk event sid exp = .ok r) :
    r.valid = true ∨ (r.valid = false ∧ r.reason.isSome = true) := by
  unfold validateZapReceiptBody at h
  repeat' first
    | split at h
    | dsimp only at h
  all_goals first
    | exact Except.noConfusion h
    | (injection h with h2
       subst h2
       simp [inval])
    | (injection h with h2
       subst h2
       exact validateZapRequest_shape cfgPk sid exp _)

end Nostr

/-- Claim C10: validateZapReceipt is total (the try/catch is modelled by a
total function) and always yields a well-formed outcome: a boolean valid
field, and a reason string present whenever valid is false — for every
input value, of any shape, and every JSON.parse behaviour. -/
theorem c10_validator_total (P : String → Except String JsValue)
    (cfgPk gameSessionId : String) (expectedAmountSats : Int) (event : JsValue) :
    (Nostr.validateZapReceipt P cfgPk event gameSessionId expectedAmountSats).valid = true
    ∨ ((Nostr.validateZapReceipt P cfgPk event gameSessionId expectedAmountSats).valid = false
       ∧ (Nostr.validateZapReceipt P cfgPk event gameSessionId
            expectedAmountSats).reason.isSome = true) := by
  unfold Nostr.validateZapReceipt Nostr.catchToResult
  cases hb : Nostr.validateZapReceiptBody P cfgPk event gameSessionId expectedAmountSats with
  | error m => simp [Nostr.inval]
  | ok r =>
    simpa using
      Nostr.validateZapReceiptBody_shape P cfgPk gameSessionId expectedAmountSats event r hb

namespace LPM1

/-- The single-flight early return of initiatePayment: an in-flight state
is returned untouched with no fetches. -/
lemma initiatePayment_busy (cfg : Config) (st : ManagerState) (a : Option Int)
    (mr : MetaResp) (cr : Option CallbackResp) (n : Int) (r : String)
    (h : st.paymentInProgress = true) :
    initiatePayment cfg st a mr cr n r = (st, none, []) := by
  unfold initiatePayment
  simp [h]

/-- On a free manager, initiatePayment either fails (leaving the stored
session untouched and the lock released) or succeeds, storing a fresh
session whose msat amount is a thousand times its sat amount. -/
lemma initiatePayment_free_cases (cfg : Config) (st : ManagerState) (a : Option Int)
    (mr : MetaResp) (cr : Option CallbackResp) (n : Int) (r : String)
    (h : st.paymentInProgress = false) :
    ((initiatePayment cfg st a mr cr n r).1.currentSession = st.currentSession
      ∧ (initiatePayment cfg st a mr cr n r).1.paymentInProgress = false)
    ∨ ((initiatePayment cfg st a mr cr n r).1.paymentInProgress = true
      ∧ ∃ s, (initiatePayment cfg st a mr cr n r).1.currentSession = some s
          ∧ s.amountMsats = 1000 * s.amountSats
          ∧ s.id = generateSessionId n r) := by
  unfold initiatePayment
  rw [if_neg (by simp [h])]
  cases hm : fetchLnurlMetadata cfg.recipientLightningAddress mr with
  | none => exact Or.inl ⟨rfl, rfl⟩
  | some meta =>
    dsimp only
    cases hn : (meta.allowsNostr != some true) with
    | true =>
      rw [if_pos rfl]
      exact Or.inl ⟨rfl, rfl⟩
    | false =>
      rw [if_neg Bool.false_ne_true]
      cases hcb : getInvoiceFromCallback cr with
      | none => exact Or.inl ⟨rfl, rfl⟩
      | some invoice =>
        refine Or.inr ⟨rfl, _, rfl, ?_, rfl⟩
        exact mul_comm _ 1000

/-- The invariant of the manager state machine: a stored session implies
the flight lock is held and the session amounts are in the exact
1000-to-1 ratio. -/
def Inv (st : ManagerState) : Prop :=
  ∀ s, st.currentSession = some s →
    st.paymentInProgress = true ∧ s.amountMsats = 1000 * s.amountSats

/-- The initial state satisfies the invariant. -/
lemma inv_init : Inv initManagerState := by
  intro s hs
  simp [initManagerState] at hs

/-- Every operation preserves the invariant. -/
lemma inv_step (cfg : Config) (st : ManagerState) (op : Op) (h : Inv st) :
    Inv (step cfg st op) := by
  cases op with
  | complete =>
    intro s hs
    simp [step, completePayment] at hs
  | reset =>
    intro s hs
    simp [step, resetPayment] at hs
  | initiate a mr cr n r =>
    cases hb : st.paymentInProgress with
    | true =>
      intro s hs
      simp only [step] at hs ⊢
      rw [initiatePayment_busy cfg st a mr cr n r hb] at hs ⊢
      exact h s hs
    | false =>
      intro s hs
      simp only [step] at hs ⊢
      rcases initiatePayment_free_cases cfg st a mr cr n r hb
        with ⟨hsess, _⟩ | ⟨hpay, s2, hs2, hm, _⟩
      · rw [hsess] at hs
        have := (h s hs).1
        rw [hb] at this
        exact Bool.noConfusion this
      · rw [hs2] at hs
        injection hs with he
        subst he
        exact ⟨hpay, hm⟩

/-- The invariant holds after any operation sequence. -/
lemma inv_foldl (cfg : Config) (ops : List Op) :
    ∀ st, Inv st → Inv (ops.foldl (step cfg) st) := by
  induction ops with
  | nil => intro st h; exact h
  | cons op rest ih =>
    intro st h
    exact ih _ (inv_step cfg st op h)

/-- The invariant of every reachable state. -/
lemma inv_run (cfg : Config) (ops : List Op) : Inv (run cfg ops) :=
  inv_foldl cfg ops initManagerState inv_init

end LPM1

/-- Claim C9: any session ever stored by the flow satisfies
amountMsats = 1000 x amountSats, and no operation mutates the id of a
stored session: the only step that keeps a session alive is the busy
early-return, which returns the state untouched (complete and reset drop
the session; a fresh initiate can only run when no session is stored). -/
theorem c9_session_invariants (cfg : LPM1.Config) (ops : List LPM1.Op)
    (s : LPM1.Session) (h : (LPM1.run cfg ops).currentSession = some s) :
    s.amountMsats = 1000 * s.amountSats
    ∧ ∀ (op : LPM1.Op) (s2 : LPM1.Session),
        (LPM1.step cfg (LPM1.run cfg ops) op).currentSession = some s2 → s2.id = s.id := by
  have hinv := LPM1.inv_run cfg ops
  obtain ⟨hpay, hm⟩ := hinv s h
  refine ⟨hm, ?_⟩
  intro op s2 hs2
  cases op with
  | complete => simp [LPM1.step, LPM1.completePayment] at hs2
  | reset => simp [LPM1.step, LPM1.resetPayment] at hs2
  | initiate a mr cr n r =>
    simp only [LPM1.step] at hs2
    rw [LPM1.initiatePayment_busy cfg _ a mr cr n r hpay] at hs2
    rw [h] at hs2
    injection hs2 with he
    rw [← he]

/-- A successful well-known metadata response used by concrete runs. -/
def goodMetaResp : LPM1.MetaResp :=
  some (true, { status := none, reason := none,
                callback := some "https://cb.example/pay",
                minSendable := some 1000, maxSendable := some 500000,
                allowsNostr := some true, nostrPubkey := some "rpk",
                tag := some "payRequest" })

/-- A successful callback (invoice) response used by concrete runs. -/
def goodCbResp : LPM1.CallbackResp := { ok := true, pr := some "lnbc1" }

/-- The operation list of one successful negotiation. -/
def opsW : List LPM1.Op := [.initiate (some 100) goodMetaResp (some goodCbResp) 5000 "abcd"]

/-- The session that run stores for opsW. -/
def sessW : LPM1.Session :=
  ⟨"satsnake-5000-abcd", 100, 100000, "lnbc1",
   LPM1.createZapRequest "satsnake-5000-abcd" 100 (some "rpk") 5
     LPM1.SATSNAKE_CONFIG.relays, 5000⟩

/-- Claim C9, witness: the invariant theorem applied to the state reached
by one successful negotiation under the static configuration. -/
theorem c9_session_invariants_witness : sessW.amountMsats = 1000 * sessW.amountSats :=
  (c9_session_invariants LPM1.SATSNAKE_CONFIG opsW sessW rfl).1

/-- Claim C4, counterexample: in the part_001 flow a request of 1000000
sats (1000000000 msats, far above the maxSendable bound of the provider of 500000
msats) performs no bounds check at all: the callback request IS issued
with the out-of-range amount and the flow even succeeds, instead of
failing with an amount-range error before any callback call. -/
theorem c4_counterexample_callback_called_out_of_range :
    (LPM1.initiatePayment LPM1.SATSNAKE_CONFIG LPM1.initManagerState (some 1000000)
        goodMetaResp (some goodCbResp) 5000 "abcd").2.2
      = [LPM1.FetchCall.wellKnown "https://primal.net/.well-known/lnurlp/mustardmoose1",
         LPM1.FetchCall.callback "https://cb.example/pay" 1000000000]
    ∧ (LPM1.initiatePayment LPM1.SATSNAKE_CONFIG LPM1.initManagerState (some 1000000)
        goodMetaResp (some goodCbResp) 5000 "abcd").2.1.isSome = true
    ∧ (500000 : Int) < 1000000 * 1000 :=
  ⟨rfl, rfl, by norm_num⟩

/-- Claim C4 (amended): the bounds check exists only in the part_000 flow:
there, a requested amount whose msat value lies outside the closed
interval given by the sendable bounds fails with the amount-range error,
and the only network call ever made by that flow is the metadata fetch
(it never calls the callback at all). -/
theorem c4_amended_bounds_check_part000 (amountSats : Int) (sessionId : String)
    (status : Int) (d : LPM0.Raw0)
    (hout : (∃ mn, d.minSendable = some mn ∧ amountSats * 1000 < mn)
          ∨ (∃ mx, d.maxSendable = some mx ∧ mx < amountSats * 1000)) :
    LPM0.initiatePayment amountSats sessionId (.response true status d)
      = ({ success := false,
           error := some ("Amount " ++ toString amountSats
             ++ " sats is outside allowed range") },
         [LPM0.lnurlEndpoint]) := by
  have hcond : (LPM0.ltDivNaN amountSats d.minSendable
      || LPM0.gtDivNaN amountSats d.maxSendable) = true := by
    rcases hout with ⟨mn, hmn, hlt⟩ | ⟨mx, hmx, hgt⟩
    · have h1 : LPM0.ltDivNaN amountSats d.minSendable = true := by
        rw [hmn]
        apply decide_eq_true
        rw [lt_div_iff₀ (by norm_num : (0 : ℚ) < 1000)]
        exact_mod_cast hlt
      rw [h1, Bool.true_or]
    · have h1 : LPM0.gtDivNaN amountSats d.maxSendable = true := by
        rw [hmx]
        apply decide_eq_true
        rw [div_lt_iff₀ (by norm_num : (0 : ℚ) < 1000)]
        exact_mod_cast hgt
      rw [h1, Bool.or_true]
  unfold LPM0.initiatePayment
  dsimp only
  rw [if_neg (by simp), if_pos hcond]

/-- A metadata body whose minSendable is 2000 msats. -/
def rawBounds : LPM0.Raw0 := { minSendable := some 2000, maxSendable := some 500000 }

/-- Claim C4, witness: the amended bounds theorem applied to a 1-sat
request against a 2000-msat minimum. -/
theorem c4_amended_witness :
    LPM0.initiatePayment 1 "s1" (.response true 200 rawBounds)
      = ({ success := false,
           error := some ("Amount " ++ toString (1 : Int)
             ++ " sats is outside allowed range") },
         [LPM0.lnurlEndpoint]) :=
  c4_amended_bounds_check_part000 1 "s1" 200 rawBounds (Or.inl ⟨2000, rfl, by norm_num⟩)
